import Mathlib

/-!
Verification development for the Pinecone load-testing harness
(`pinecone_load_test.py`).  The Python source is shallowly embedded:

* latencies and wall-clock times are modelled as exact rationals (`ℚ`);
* the thread-safe `LoadTestMetrics` collector is modelled as a pure state
  record; its lock linearizes concurrent `record` invocations, so any
  concurrent execution is observationally a finite sequence of `record`
  calls, which we model as a fold;
* Python `random.random()` outputs are supplied by an oracle function
  (its contract: every output lies in `[0, 1)`);
* fallible operations (list indexing that can raise `IndexError`, calls
  against the remote index that can raise) are modelled with `Option` /
  a success oracle;
* the unbounded `while not stop_event.is_set()` worker loops are modelled
  with an explicit fuel bound on the number of loop iterations.
-/

/-- Constant `VECTOR_DIMENSION = 1024` from the configuration block. -/
def VECTOR_DIMENSION : ℕ := 1024

/-- Constant `BATCH_SIZE = 100` from the configuration block. -/
def BATCH_SIZE : ℕ := 100

/-- State of the `LoadTestMetrics` thread-safe collector
(`operation_count`, `error_count`, `latencies`, `start_time`, `end_time`).
The `threading.Lock` is not part of the observable state. -/
structure LoadTestMetrics where
  operation_count : ℕ
  error_count : ℕ
  latencies : List ℚ
  start_time : Option ℚ
  end_time : Option ℚ
deriving DecidableEq

/-- The freshly constructed collector (`LoadTestMetrics.__init__`). -/
def LoadTestMetrics.init : LoadTestMetrics :=
  { operation_count := 0, error_count := 0, latencies := [],
    start_time := none, end_time := none }

/-- Model of `LoadTestMetrics.record(latency_ms, success)`: under the lock, a success
increments `operation_count` and appends the latency; a failure increments
`error_count`. -/
def LoadTestMetrics.record (m : LoadTestMetrics) (latency_ms : ℚ)
    (success : Bool) : LoadTestMetrics :=
  if success then
    { m with operation_count := m.operation_count + 1,
             latencies := m.latencies ++ [latency_ms] }
  else
    { m with error_count := m.error_count + 1 }

/-- Model of `LoadTestMetrics.start()`: captures the current wall clock `t`. -/
def LoadTestMetrics.start (m : LoadTestMetrics) (t : ℚ) : LoadTestMetrics :=
  { m with start_time := some t }

/-- Model of `LoadTestMetrics.stop()`: captures the current wall clock `t`. -/
def LoadTestMetrics.stop (m : LoadTestMetrics) (t : ℚ) : LoadTestMetrics :=
  { m with end_time := some t }

/-- A finite sequence of `record(latency, success)` calls, applied in order.
The lock of the collector serializes concurrent callers, so every concurrent
history is observationally equal to such a sequence. -/
def LoadTestMetrics.recordAll (m : LoadTestMetrics)
    (calls : List (ℚ × Bool)) : LoadTestMetrics :=
  calls.foldl (fun s c => s.record c.1 c.2) m

/-- Model of Python `sorted` on the latency list: ascending merge sort. -/
def sortedAsc (l : List ℚ) : List ℚ := l.mergeSort (· ≤ ·)

/-- The percentile index `int(n * p)` used by `summary()`
(truncation of a non-negative product, i.e. `floor(p * n)`). -/
def pIndex (n : ℕ) (p : ℚ) : ℕ := (⌊(n : ℚ) * p⌋).toNat

/-- Model of Python banker rounding (`round`) of a rational to an integer:
round half to even. -/
def roundHalfEven (x : ℚ) : ℤ :=
  let f := ⌊x⌋
  let r := x - f
  if r < 1 / 2 then f
  else if 1 / 2 < r then f + 1
  else if f % 2 = 0 then f else f + 1

/-- Model of Python `round(x, 2)`: round to two decimal places, half to even. -/
def round2 (x : ℚ) : ℚ := (roundHalfEven (x * 100) : ℚ) / 100

/-- Model of `statistics.mean`, total; `summary()` only applies it to a
non-empty list (the Python function raises on empty input). -/
def pyMean (l : List ℚ) : ℚ := l.sum / (l.length : ℚ)

/-- Model of `statistics.median`, total: sort ascending, take the middle
element for odd length, the average of the two middle elements for even
length.  `summary()` only applies it to a non-empty list. -/
def pyMedian (l : List ℚ) : ℚ :=
  let s := sortedAsc l
  let n := s.length
  if n % 2 = 1 then s.getD (n / 2) 0
  else (s.getD (n / 2 - 1) 0 + s.getD (n / 2) 0) / 2

/-- Python `min` on a list, total model; applied only to non-empty lists. -/
def pyMin (l : List ℚ) : ℚ := l.min?.getD 0

/-- Python `max` on a list, total model; applied only to non-empty lists. -/
def pyMax (l : List ℚ) : ℚ := l.max?.getD 0

/-- The dictionary returned by `LoadTestMetrics.summary()`: either the
counts-only form (zero recorded latencies) or the full statistics form. -/
inductive SummaryResult where
  | countsOnly (operations : ℕ) (errors : ℕ) (elapsed_sec : ℚ)
  | full (operations : ℕ) (errors : ℕ) (elapsed_sec : ℚ) (ops_per_sec : ℚ)
      (avg_latency_ms : ℚ) (p50_latency_ms : ℚ) (p95_latency_ms : ℚ)
      (p99_latency_ms : ℚ) (min_latency_ms : ℚ) (max_latency_ms : ℚ)
deriving DecidableEq

/-- Model of `LoadTestMetrics.summary()`.  Here `now` stands for `time.time()` at the
moment of the call (used when `start_time` / `end_time` is unset).  The two
percentile list accesses `sorted(latencies)[int(n * 0.95)]` and
`sorted(latencies)[int(n * 0.99)]` are modelled with `Option` indexing, so
an out-of-range access (Python `IndexError`) yields `none`.  The remaining
statistics are only evaluated under the non-emptiness guard, exactly as in
the source. -/
def LoadTestMetrics.summary (m : LoadTestMetrics) (now : ℚ) :
    Option SummaryResult :=
  let elapsed := m.end_time.getD now - m.start_time.getD now
  if m.latencies.isEmpty then
    some (SummaryResult.countsOnly 0 m.error_count elapsed)
  else
    let s := sortedAsc m.latencies
    let n := m.latencies.length
    match s[pIndex n (95 / 100)]?, s[pIndex n (99 / 100)]? with
    | some q95, some q99 =>
        some (SummaryResult.full m.operation_count m.error_count
          (round2 elapsed)
          (if 0 < elapsed then round2 ((m.operation_count : ℚ) / elapsed)
           else 0)
          (round2 (pyMean m.latencies)) (round2 (pyMedian m.latencies))
          (round2 q95) (round2 q99)
          (round2 (pyMin m.latencies)) (round2 (pyMax m.latencies)))
    | _, _ => none

/-- Spec-side definition (from the words of the spec, for comparison with the
code): the arithmetic mean of a list of latencies. -/
def specArithmeticMean (l : List ℚ) : ℚ := l.sum / (l.length : ℚ)

/-- Spec-side definition: the statistical median — middle element of the
ascending sort for odd length, average of the two middle elements for even
length. -/
def specStatisticalMedian (l : List ℚ) : ℚ :=
  let s := sortedAsc l
  if s.length % 2 = 1 then s.getD (s.length / 2) 0
  else (s.getD (s.length / 2 - 1) 0 + s.getD (s.length / 2) 0) / 2

/-- Spec-side definition: the element at index `i` of the latencies sorted
ascending (index-based nearest rank, no interpolation). -/
def specSortedElement (l : List ℚ) (i : ℕ) : ℚ := (sortedAsc l).getD i 0

/-- Spec-side definition: the minimum latency. -/
def specMinLatency (l : List ℚ) : ℚ := l.min?.getD 0

/-- Spec-side definition: the maximum latency. -/
def specMaxLatency (l : List ℚ) : ℚ := l.max?.getD 0

/-- A vector as built by the generator: identifier, values, and the
`batch_id` metadata entry. -/
structure PVector where
  id : String
  values : List ℚ
  metadata_batch_id : ℕ
deriving DecidableEq

/-- Model of `random.uniform(a, b)` applied to one `random.random()` output `u`:
`a + (b - a) * u`. -/
def randomUniform (a b u : ℚ) : ℚ := a + (b - a) * u

/-- Model of `generate_random_vector(dimension)`: a list of `dimension` values
`random.uniform(-1, 1)`.  The oracle `u` supplies the underlying
`random.random()` outputs (one per coordinate). -/
def generate_random_vector (u : ℕ → ℚ) (dimension : ℕ) : List ℚ :=
  (List.range dimension).map (fun j => randomUniform (-1) 1 (u j))

/-- Model of `generate_vector_batch(start_id, count)`: `count` vectors with ids
`"vec-{start_id + i}"`, fresh random values of dimension
`VECTOR_DIMENSION`, and metadata `batch_id = start_id // BATCH_SIZE`.
The oracle `u i j` supplies the `random.random()` output for coordinate
`j` of vector `i`. -/
def generate_vector_batch (u : ℕ → ℕ → ℚ) (start_id count : ℕ) :
    List PVector :=
  (List.range count).map (fun i =>
    { id := "vec-" ++ toString (start_id + i),
      values := generate_random_vector (u i) VECTOR_DIMENSION,
      metadata_batch_id := start_id / BATCH_SIZE })

/-- Model of `upsert_batch(index, vectors, metrics)`: if `index.upsert` succeeds
(per the `success` oracle), record the call latency as a success and
return `len(vectors)`; if it raises, the `except` branch records a failure
with latency 0 and returns 0.  The error is never re-raised. -/
def upsert_batch (vectors : List PVector) (success : Bool)
    (latency_ms : ℚ) (m : LoadTestMetrics) : LoadTestMetrics × ℕ :=
  if success then (m.record latency_ms true, vectors.length)
  else (m.record 0 false, 0)

/-- Value `total_batches = (num_vectors + BATCH_SIZE - 1) // BATCH_SIZE` from
`run_write_load_test`. -/
def total_batches (num_vectors : ℕ) : ℕ :=
  (num_vectors + BATCH_SIZE - 1) / BATCH_SIZE

/-- Size of batch `k` in `run_write_load_test`:
`count = min(BATCH_SIZE, num_vectors - start_id)` with
`start_id = k * BATCH_SIZE`. -/
def batch_count (num_vectors k : ℕ) : ℕ :=
  min BATCH_SIZE (num_vectors - k * BATCH_SIZE)

/-- Loop body of `run_write_load_test` for batch number `k`: build the
batch and run `upsert_batch`, threading the metrics state and the running
`vectors_upserted` total (`as_completed` only sums the per-future results,
so summing in submission order is observationally equal). -/
def write_step (num_vectors : ℕ) (succ : ℕ → Bool) (lat : ℕ → ℚ)
    (rng : ℕ → ℕ → ℕ → ℚ) (acc : LoadTestMetrics × ℕ) (k : ℕ) :
    LoadTestMetrics × ℕ :=
  let start_id := k * BATCH_SIZE
  let vectors := generate_vector_batch (rng k) start_id
      (batch_count num_vectors k)
  let r := upsert_batch vectors (succ k) (lat k) acc.1
  (r.1, acc.2 + r.2)

/-- The values printed by the final report block of
`run_write_load_test` (the `--- Write Results ---` lines): vectors
upserted, `summary['operations']`, `summary['errors']`,
`summary['elapsed_sec']`, the vectors/sec line
`round(vectors_upserted / summary['elapsed_sec'], 2)`, and the
`ops_per_sec` / `avg` / `p50` / `p95` / `p99` entries of the summary
dict. -/
structure WriteReport where
  vectors_upserted : ℕ
  batches_completed : ℕ
  errors : ℕ
  total_time : ℚ
  vectors_per_sec : ℚ
  batch_throughput : ℚ
  avg_batch_latency_ms : ℚ
  p50_latency_ms : ℚ
  p95_latency_ms : ℚ
  p99_latency_ms : ℚ
deriving DecidableEq

/-- Model of the write-run report block.  On the counts-only summary dict
(zero successful upserts) the report raises and never completes: the
vectors/sec line divides by `summary['elapsed_sec']`
(`ZeroDivisionError` when the elapsed time is 0) and the next line reads
the missing key `summary['ops_per_sec']` (`KeyError`).  On the full dict
the vectors/sec line still raises `ZeroDivisionError` when the rounded
elapsed time is 0; otherwise every key is present and the report
completes. -/
def write_report (vu : ℕ) : SummaryResult → Option WriteReport
  | SummaryResult.countsOnly _ _ _ => none
  | SummaryResult.full ops errs elapsed opsps avg p50 p95 p99 _ _ =>
      if elapsed = 0 then none
      else some { vectors_upserted := vu, batches_completed := ops,
                  errors := errs, total_time := elapsed,
                  vectors_per_sec := round2 ((vu : ℚ) / elapsed),
                  batch_throughput := opsps, avg_batch_latency_ms := avg,
                  p50_latency_ms := p50, p95_latency_ms := p95,
                  p99_latency_ms := p99 }

/-- Model of the read-run and storm aggregate report blocks: they print
`summary['operations']`, `summary['errors']`, `summary['elapsed_sec']`
(present in both dict forms) and then unconditionally read
`summary['ops_per_sec']` and the latency keys, which exist only in the
full form — on a counts-only dict that access raises `KeyError` and the
report never completes. -/
def print_summary_report : SummaryResult → Option SummaryResult
  | SummaryResult.countsOnly _ _ _ => none
  | s => some s

/-- Model of `run_write_load_test(index, num_vectors, num_threads)`:
start the metrics clock, submit one `upsert_batch` work item per batch
number in `range(total_batches)`, sum the per-batch results into
`vectors_upserted`, stop the clock, print the final report, and return
`vectors_upserted`.  Here `succ k` tells whether the upsert call of
batch `k` succeeds, `lat k` its latency, `rng` the random source.
Returns `some` of the final metrics state, `vectors_upserted` and the
printed report when the run returns; `none` when the report block
raises, in which case the `return vectors_upserted` line is never
reached. -/
def run_write_load_test (num_vectors : ℕ) (succ : ℕ → Bool)
    (lat : ℕ → ℚ) (rng : ℕ → ℕ → ℕ → ℚ) (t0 t1 : ℚ) :
    Option (LoadTestMetrics × ℕ × WriteReport) :=
  let m0 := LoadTestMetrics.init.start t0
  let r := (List.range (total_batches num_vectors)).foldl
      (write_step num_vectors succ lat rng) (m0, 0)
  let m2 := r.1.stop t1
  match (m2.summary t1).bind (write_report r.2) with
  | some rep => some (m2, r.2, rep)
  | none => none

/-- Model of `query_random(index, metrics, stop_event)`: loop while the stop event
is unset; each iteration issues one query and records exactly one outcome
(success with its latency, or failure with latency 0 — the `except`
branch never exits the loop).  Iteration `i` observes `stop i`; `outcome
i` tells whether the query call succeeds and `lat i` its latency.  `fuel`
bounds the number of iterations modelled.  Returns the final metrics
state and the list of iteration indices at which a query was issued. -/
def query_random (stop : ℕ → Bool) (outcome : ℕ → Bool) (lat : ℕ → ℚ) :
    ℕ → ℕ → LoadTestMetrics → LoadTestMetrics × List ℕ
  | 0, _, m => (m, [])
  | fuel + 1, i, m =>
    if stop i then (m, [])
    else
      let m2 := if outcome i then m.record (lat i) true
                else m.record 0 false
      let r := query_random stop outcome lat fuel (i + 1) m2
      (r.1, i :: r.2)

/-- State of `MultiNamespaceMetrics`: a global collector plus the lazily
populated `defaultdict` of per-namespace collectors (absent key ↦
`none`). -/
structure MultiNamespaceMetrics where
  global_metrics : LoadTestMetrics
  per_namespace : String → Option LoadTestMetrics

/-- The freshly constructed aggregator (`MultiNamespaceMetrics.__init__`):
empty global collector, no per-namespace collectors yet. -/
def MultiNamespaceMetrics.init : MultiNamespaceMetrics :=
  { global_metrics := LoadTestMetrics.init, per_namespace := fun _ => none }

/-- Model of `MultiNamespaceMetrics.record(namespace, latency_ms, success)`: record
the outcome into the global collector, and into the per-namespace
collector for `ns` — the `defaultdict` creates a fresh collector on the
first record for a namespace. -/
def MultiNamespaceMetrics.record (s : MultiNamespaceMetrics) (ns : String)
    (latency_ms : ℚ) (success : Bool) : MultiNamespaceMetrics :=
  { global_metrics := s.global_metrics.record latency_ms success,
    per_namespace := fun k =>
      if k = ns then
        some (((s.per_namespace ns).getD LoadTestMetrics.init).record
          latency_ms success)
      else s.per_namespace k }

/-- A finite sequence of `MultiNamespaceMetrics.record` calls
`(namespace, latency, success)`, applied in order. -/
def MultiNamespaceMetrics.recordAll (s : MultiNamespaceMetrics)
    (calls : List (String × ℚ × Bool)) : MultiNamespaceMetrics :=
  calls.foldl (fun a c => a.record c.1 c.2.1 c.2.2) s

/-- Model of `MultiNamespaceMetrics.start()`. -/
def MultiNamespaceMetrics.start (s : MultiNamespaceMetrics) (t : ℚ) :
    MultiNamespaceMetrics :=
  { s with global_metrics := s.global_metrics.start t }

/-- Model of `MultiNamespaceMetrics.stop()`. -/
def MultiNamespaceMetrics.stop (s : MultiNamespaceMetrics) (t : ℚ) :
    MultiNamespaceMetrics :=
  { s with global_metrics := s.global_metrics.stop t }

/-- Model of `query_namespace(index, namespace, metrics, stop_event, top_k)`: same
loop shape as `query_random`, recording into the aggregator under the
fixed namespace of the worker. -/
def query_namespace (ns : String) (stop : ℕ → Bool) (outcome : ℕ → Bool)
    (lat : ℕ → ℚ) :
    ℕ → ℕ → MultiNamespaceMetrics → MultiNamespaceMetrics × List ℕ
  | 0, _, s => (s, [])
  | fuel + 1, i, s =>
    if stop i then (s, [])
    else
      let s2 := if outcome i then s.record ns (lat i) true
                else s.record ns 0 false
      let r := query_namespace ns stop outcome lat fuel (i + 1) s2
      (r.1, i :: r.2)

/-- Terminal outcome of the multi-namespace storm orchestrator: the
no-op taken when namespace discovery finds nothing (no worker launched,
zero queries issued, only an explanatory message printed); an uncaught
exception raised while printing the aggregate report (the run dies); or
a completed run with its thread count, final aggregator state and
printed aggregate summary. -/
inductive StormOutcome where
  | noop
  | raised
  | completed (total_threads : ℕ) (final : MultiNamespaceMetrics)
      (aggregate : SummaryResult)

/-- Model of `run_aggressive_multi_namespace_read_test(index, duration_seconds,
threads_per_namespace, top_k)`: discover the namespaces from
`describe_index_stats` (passed in as `namespaces`); if none, return
immediately as a no-op.  Otherwise launch `threads_per_namespace` workers
per namespace (`total_threads = num_ns * threads_per_namespace`), let
every worker loop until the stop event, stop the clock, and print the
aggregate report (`print_summary_report`; the later per-namespace
breakdown skips zero-success namespaces and cannot raise).  Here
`stop ns w i` is the view worker `(ns, w)` has of the stop
flag at its iteration `i`; `outcome` and `lat` are the per-call success
and latency oracles; `fuel` bounds the iterations of each worker. -/
def run_aggressive_multi_namespace_read_test (namespaces : List String)
    (threads_per_namespace : ℕ) (stop : String → ℕ → ℕ → Bool)
    (outcome : String → ℕ → ℕ → Bool) (lat : String → ℕ → ℕ → ℚ)
    (fuel : ℕ) (t0 t1 : ℚ) : StormOutcome :=
  if namespaces.isEmpty then StormOutcome.noop
  else
    let total_threads := namespaces.length * threads_per_namespace
    let s0 := MultiNamespaceMetrics.init.start t0
    let s1 := namespaces.foldl (fun s ns =>
        (List.range threads_per_namespace).foldl (fun a w =>
          (query_namespace ns (stop ns w) (outcome ns w) (lat ns w)
            fuel 0 a).1) s) s0
    let s2 := s1.stop t1
    match (s2.global_metrics.summary t1).bind print_summary_report with
    | some rep => StormOutcome.completed total_threads s2 rep
    | none => StormOutcome.raised

/-- Model of `run_read_load_test(index, duration_seconds, num_threads)`:
start the clock, launch `num_threads` `query_random` workers, stop the
clock after the duration, and print the final report
(`print_summary_report`).  `stop w`, `outcome w`, `lat w` are the
stop-flag view and per-call oracles of worker `w`.  Returns `some` of
the final metrics state and the printed report when the report
completes; `none` when it raises. -/
def run_read_load_test (num_threads : ℕ) (stop : ℕ → ℕ → Bool)
    (outcome : ℕ → ℕ → Bool) (lat : ℕ → ℕ → ℚ) (fuel : ℕ) (t0 t1 : ℚ) :
    Option (LoadTestMetrics × SummaryResult) :=
  let m0 := LoadTestMetrics.init.start t0
  let m1 := (List.range num_threads).foldl (fun m w =>
      (query_random (stop w) (outcome w) (lat w) fuel 0 m).1) m0
  let m2 := m1.stop t1
  match (m2.summary t1).bind print_summary_report with
  | some rep => some (m2, rep)
  | none => none

/-- Observer on the lazily created per-namespace map: the operation count
of the collector of a namespace, 0 if that collector was never created. -/
def nsOperationCount : Option LoadTestMetrics → ℕ
  | none => 0
  | some m => m.operation_count

/-- Observer on the lazily created per-namespace map: the error count of
the collector of a namespace, 0 if that collector was never created. -/
def nsErrorCount : Option LoadTestMetrics → ℕ
  | none => 0
  | some m => m.error_count

/-! ## Lemmas about the metrics collector -/

theorem record_cons_recordAll (m : LoadTestMetrics) (c : ℚ × Bool)
    (cs : List (ℚ × Bool)) :
    m.recordAll (c :: cs) = (m.record c.1 c.2).recordAll cs := rfl

theorem recordAll_operation_count (calls : List (ℚ × Bool)) :
    ∀ m : LoadTestMetrics, (m.recordAll calls).operation_count =
      m.operation_count + (calls.filter (·.2)).length := by
  induction calls with
  | nil => intro m; rfl
  | cons c cs ih =>
    intro m
    rw [record_cons_recordAll, ih]
    cases hc : c.2
    · simp [LoadTestMetrics.record, hc, List.filter_cons]
    · simp [LoadTestMetrics.record, hc, List.filter_cons]
      omega

theorem recordAll_error_count (calls : List (ℚ × Bool)) :
    ∀ m : LoadTestMetrics, (m.recordAll calls).error_count =
      m.error_count + (calls.filter (fun c => !c.2)).length := by
  induction calls with
  | nil => intro m; rfl
  | cons c cs ih =>
    intro m
    rw [record_cons_recordAll, ih]
    cases hc : c.2
    · simp [LoadTestMetrics.record, hc, List.filter_cons]
      omega
    · simp [LoadTestMetrics.record, hc, List.filter_cons]

theorem recordAll_latencies (calls : List (ℚ × Bool)) :
    ∀ m : LoadTestMetrics, (m.recordAll calls).latencies =
      m.latencies ++ (calls.filter (·.2)).map (·.1) := by
  induction calls with
  | nil => intro m; simp [LoadTestMetrics.recordAll]
  | cons c cs ih =>
    intro m
    rw [record_cons_recordAll, ih]
    cases hc : c.2 <;> simp [LoadTestMetrics.record, hc, List.filter_cons]

theorem recordAll_start_time (calls : List (ℚ × Bool)) :
    ∀ m : LoadTestMetrics, (m.recordAll calls).start_time = m.start_time := by
  induction calls with
  | nil => intro m; rfl
  | cons c cs ih =>
    intro m
    rw [record_cons_recordAll, ih]
    cases hc : c.2 <;> simp [LoadTestMetrics.record, hc]

theorem recordAll_end_time (calls : List (ℚ × Bool)) :
    ∀ m : LoadTestMetrics, (m.recordAll calls).end_time = m.end_time := by
  induction calls with
  | nil => intro m; rfl
  | cons c cs ih =>
    intro m
    rw [record_cons_recordAll, ih]
    cases hc : c.2 <;> simp [LoadTestMetrics.record, hc]


/-- Claim C2: after any finite sequence of `record(latency, success)`
calls on one `LoadTestMetrics`, `operation_count` equals the number of
calls with `success = True` and also equals `len(latencies)`,
`error_count` equals the number of calls with `success = False` (no
record lost or counted twice), and a `record` with `success = False`
leaves `operation_count` and the latencies list unchanged. -/
theorem c2_record_outcome_accounting (calls : List (ℚ × Bool))
    (m : LoadTestMetrics) (lat : ℚ) :
    (LoadTestMetrics.init.recordAll calls).operation_count =
      (calls.filter (·.2)).length ∧
    (LoadTestMetrics.init.recordAll calls).operation_count =
      (LoadTestMetrics.init.recordAll calls).latencies.length ∧
    (LoadTestMetrics.init.recordAll calls).error_count =
      (calls.filter (fun c => !c.2)).length ∧
    (m.record lat false).operation_count = m.operation_count ∧
    (m.record lat false).latencies = m.latencies := by
  refine ⟨?_, ?_, ?_, ?_, ?_⟩
  · rw [recordAll_operation_count]; simp [LoadTestMetrics.init]
  · rw [recordAll_operation_count, recordAll_latencies]
    simp [LoadTestMetrics.init]
  · rw [recordAll_error_count]; simp [LoadTestMetrics.init]
  · simp [LoadTestMetrics.record]
  · simp [LoadTestMetrics.record]

/-- Claim C3: on every collector state with zero recorded successes
(empty latencies list, which any failure-only call history produces),
regardless of `error_count` and of the `start_time` / `end_time` fields,
`summary()` returns only the operation count (0), the error count and the
elapsed time — the counts-only form with no latency or throughput
fields — and does not raise: no division and no list indexing occurs. -/
theorem c3_summary_zero_successes (m0 : LoadTestMetrics)
    (calls : List (ℚ × Bool)) (now : ℚ)
    (hop0 : m0.operation_count = 0) (hlat0 : m0.latencies = [])
    (hfail : ∀ c ∈ calls, c.2 = false) :
    (m0.recordAll calls).operation_count = 0 ∧
    (m0.recordAll calls).latencies = [] ∧
    (m0.recordAll calls).summary now =
      some (SummaryResult.countsOnly 0 ((m0.recordAll calls).error_count)
        (m0.end_time.getD now - m0.start_time.getD now)) := by
  have hfilter : calls.filter (·.2) = [] := by
    rw [List.filter_eq_nil_iff]
    intro c hc
    simp [hfail c hc]
  have hop := recordAll_operation_count calls m0
  have hlat := recordAll_latencies calls m0
  rw [hfilter] at hop hlat
  rw [hop0] at hop
  rw [hlat0] at hlat
  simp only [List.map_nil, List.append_nil, Nat.zero_add] at hop hlat
  refine ⟨hop, hlat, ?_⟩
  rw [LoadTestMetrics.summary]
  rw [recordAll_start_time, recordAll_end_time]
  simp [hlat]

/-- Witness for C3 at the concrete failure-only history `[(5, failure)]`
on a collector with `start_time = 0`, `end_time = 2`. -/
theorem c3_summary_zero_successes_witness :
    ((LoadTestMetrics.mk 0 0 [] (some 0) (some 2)).recordAll
        [((5 : ℚ), false)]).summary 3 =
      some (SummaryResult.countsOnly 0
        ((LoadTestMetrics.mk 0 0 [] (some 0) (some 2)).recordAll
          [((5 : ℚ), false)]).error_count
        ((some (2 : ℚ)).getD 3 - (some (0 : ℚ)).getD 3)) := by
  exact (c3_summary_zero_successes (LoadTestMetrics.mk 0 0 [] (some 0)
    (some 2)) [((5 : ℚ), false)] 3 rfl rfl (by decide)).2.2

/-! ## Lemmas about `summary()` -/

theorem pIndex_lt (n : ℕ) (p : ℚ) (hn : 0 < n) (hp1 : p < 1) :
    pIndex n p < n := by
  rw [pIndex]
  have h1 : ⌊(n : ℚ) * p⌋ < (n : ℤ) := by
    rw [Int.floor_lt]
    push_cast
    calc (n : ℚ) * p < (n : ℚ) * 1 :=
          mul_lt_mul_of_pos_left hp1 (by exact_mod_cast hn)
      _ = (n : ℚ) := mul_one _
  omega

theorem summary_nonempty (m : LoadTestMetrics) (now : ℚ)
    (h : m.latencies ≠ []) :
    m.summary now = some (SummaryResult.full m.operation_count
      m.error_count
      (round2 (m.end_time.getD now - m.start_time.getD now))
      (if 0 < m.end_time.getD now - m.start_time.getD now then
        round2 ((m.operation_count : ℚ) /
          (m.end_time.getD now - m.start_time.getD now))
       else 0)
      (round2 (pyMean m.latencies)) (round2 (pyMedian m.latencies))
      (round2 (specSortedElement m.latencies
        (pIndex m.latencies.length (95 / 100))))
      (round2 (specSortedElement m.latencies
        (pIndex m.latencies.length (99 / 100))))
      (round2 (pyMin m.latencies)) (round2 (pyMax m.latencies))) := by
  have hne : m.latencies.isEmpty = false := by
    simp [List.isEmpty_iff, h]
  have hn : 0 < m.latencies.length := List.length_pos.mpr h
  have hlen : (sortedAsc m.latencies).length = m.latencies.length :=
    List.length_mergeSort _
  have h95 : pIndex m.latencies.length (95 / 100) <
      (sortedAsc m.latencies).length := by
    rw [hlen]
    exact pIndex_lt _ _ hn (by norm_num)
  have h99 : pIndex m.latencies.length (99 / 100) <
      (sortedAsc m.latencies).length := by
    rw [hlen]
    exact pIndex_lt _ _ hn (by norm_num)
  have e95 : (sortedAsc m.latencies)[pIndex m.latencies.length (95 / 100)]? =
      some (specSortedElement m.latencies
        (pIndex m.latencies.length (95 / 100))) := by
    rw [List.getElem?_eq_getElem h95, specSortedElement,
      List.getD_eq_getElem _ _ h95]
  have e99 : (sortedAsc m.latencies)[pIndex m.latencies.length (99 / 100)]? =
      some (specSortedElement m.latencies
        (pIndex m.latencies.length (99 / 100))) := by
    rw [List.getElem?_eq_getElem h99, specSortedElement,
      List.getD_eq_getElem _ _ h99]
  rw [LoadTestMetrics.summary]
  simp only [hne, Bool.false_eq_true, if_false, e95, e99]

theorem summary_isSome (m : LoadTestMetrics) (now : ℚ) :
    (m.summary now).isSome := by
  by_cases h : m.latencies = []
  · rw [LoadTestMetrics.summary]
    simp [h]
  · rw [summary_nonempty m now h]
    rfl

/-- Claim C1: for every non-empty recorded latency list, `summary()`
reports `avg_latency_ms` equal to the arithmetic mean, `p50_latency_ms`
equal to the statistical median, `p95_latency_ms` / `p99_latency_ms`
equal to the element at index `floor(0.95 * N)` / `floor(0.99 * N)` of
the latencies sorted ascending (index-based nearest rank, not
interpolation), `min`/`max` equal to the minimum/maximum latency, and
`ops_per_sec` equal to `operation_count` divided by the elapsed time (0
if elapsed ≤ 0) — each rendered by the Python `round(·, 2)`, which is the
identity on the integral values of the pinned example. -/
theorem c1_summary_statistics (m : LoadTestMetrics) (now : ℚ)
    (h : m.latencies ≠ []) :
    m.summary now = some (SummaryResult.full m.operation_count
      m.error_count
      (round2 (m.end_time.getD now - m.start_time.getD now))
      (if 0 < m.end_time.getD now - m.start_time.getD now then
        round2 ((m.operation_count : ℚ) /
          (m.end_time.getD now - m.start_time.getD now))
       else 0)
      (round2 (specArithmeticMean m.latencies))
      (round2 (specStatisticalMedian m.latencies))
      (round2 (specSortedElement m.latencies
        (pIndex m.latencies.length (95 / 100))))
      (round2 (specSortedElement m.latencies
        (pIndex m.latencies.length (99 / 100))))
      (round2 (specMinLatency m.latencies))
      (round2 (specMaxLatency m.latencies))) := by
  rw [summary_nonempty m now h]
  simp only [pyMean, specArithmeticMean, pyMedian, specStatisticalMedian,
    pyMin, specMinLatency, pyMax, specMaxLatency]

/-- Witness for C1 at the pinned example: latencies `[10, 20, 30, 40,
100]` with `start_time = 1`, `end_time = 11` report mean 40, median 30,
p95 100, p99 100, min 10, max 100, and `ops_per_sec = 5 / 10`. -/
theorem c1_summary_statistics_witness :
    (LoadTestMetrics.mk 5 0 [10, 20, 30, 40, 100] (some 1)
        (some 11)).summary 11 =
      some (SummaryResult.full 5 0 10 (1 / 2) 40 30 100 100 10 100) := by
  have h := c1_summary_statistics
    (LoadTestMetrics.mk 5 0 [10, 20, 30, 40, 100] (some 1) (some 11)) 11
    (by simp)
  rw [h]
  have hsort : sortedAsc [10, 20, 30, 40, 100] =
      ([10, 20, 30, 40, 100] : List ℚ) := by
    apply List.mergeSort_eq_self
    simp
    norm_num
  have hidx95 : pIndex (5 : ℕ) (95 / 100) = 4 := by
    rw [pIndex]
    norm_num
    rfl
  have hidx95' : pIndex (5 : ℕ) (19 / 20) = 4 := by
    rw [pIndex]
    norm_num
    rfl
  have hidx99 : pIndex (5 : ℕ) (99 / 100) = 4 := by
    rw [pIndex]
    norm_num
    rfl
  simp only [Option.some.injEq, SummaryResult.full.injEq]
  norm_num [hsort, hidx95, hidx95', hidx99, round2, roundHalfEven,
    specArithmeticMean, specStatisticalMedian, specSortedElement,
    specMinLatency, specMaxLatency, List.getD, List.min?, List.max?,
    List.foldl, min_def, max_def, List.getElem?_cons_succ,
    List.getElem?_cons_zero]

/-- Claim C10: for every non-empty latency list of length `N ≥ 1`, the
percentile indices `int(N * 0.95)` and `int(N * 0.99)` computed by
`summary()` are strictly below `N`, so the accesses into the
ascending-sorted latency list are in bounds and `summary()` never fails
with an out-of-range index on a non-empty input. -/
theorem c10_percentile_indices_in_bounds :
    (∀ n : ℕ, 1 ≤ n →
      pIndex n (95 / 100) < n ∧ pIndex n (99 / 100) < n) ∧
    (∀ (m : LoadTestMetrics) (now : ℚ), m.latencies ≠ [] →
      (m.summary now).isSome) := by
  constructor
  · intro n hn
    exact ⟨pIndex_lt _ _ hn (by norm_num), pIndex_lt _ _ hn (by norm_num)⟩
  · intro m now h
    rw [summary_nonempty m now h]
    rfl

/-- Witness for C10 at `N = 5` and at a concrete one-element collector. -/
theorem c10_percentile_indices_in_bounds_witness :
    pIndex 5 (95 / 100) < 5 ∧ pIndex 5 (99 / 100) < 5 ∧
    ((LoadTestMetrics.mk 1 2 [7] none none).summary 0).isSome := by
  exact ⟨(c10_percentile_indices_in_bounds.1 5 (by norm_num)).1,
    (c10_percentile_indices_in_bounds.1 5 (by norm_num)).2,
    c10_percentile_indices_in_bounds.2 (LoadTestMetrics.mk 1 2 [7] none none)
      0 (by simp)⟩

/-- Claim C6: `generate_vector_batch(start_id, count)` returns exactly
`count` vectors; the `i`-th has identifier `"vec-{start_id + i}"`,
metadata `batch_id = start_id // BATCH_SIZE`, and a values list of
exactly `VECTOR_DIMENSION` numbers, each in the closed-open range
`[-1, 1)` whenever the underlying `random.random()` outputs lie in
`[0, 1)` (their contract). -/
theorem c6_generate_vector_batch_shape (u : ℕ → ℕ → ℚ)
    (start_id count : ℕ) (hu : ∀ i j, 0 ≤ u i j ∧ u i j < 1) :
    (generate_vector_batch u start_id count).length = count ∧
    (∀ i, i < count →
      (generate_vector_batch u start_id count)[i]? =
        some { id := "vec-" ++ toString (start_id + i),
               values := generate_random_vector (u i) VECTOR_DIMENSION,
               metadata_batch_id := start_id / BATCH_SIZE }) ∧
    (∀ i, (generate_random_vector (u i) VECTOR_DIMENSION).length =
      VECTOR_DIMENSION) ∧
    (∀ i, ∀ v ∈ generate_random_vector (u i) VECTOR_DIMENSION,
      -1 ≤ v ∧ v < 1) := by
  refine ⟨?_, ?_, ?_, ?_⟩
  · simp [generate_vector_batch]
  · intro i hi
    simp [generate_vector_batch, List.getElem?_map, List.getElem?_range, hi]
  · intro i
    simp [generate_random_vector]
  · intro i v hv
    simp only [generate_random_vector, List.mem_map, List.mem_range] at hv
    obtain ⟨j, _, rfl⟩ := hv
    have h := hu i j
    rw [randomUniform]
    constructor
    · linarith [h.1]
    · linarith [h.2]

/-- Witness for C6 at `start_id = 3`, `count = 2` with all
`random.random()` outputs `1 / 2`. -/
theorem c6_generate_vector_batch_shape_witness :
    (generate_vector_batch (fun _ _ => (1 : ℚ) / 2) 3 2).length = 2 ∧
    (generate_vector_batch (fun _ _ => (1 : ℚ) / 2) 3 2)[0]? =
      some { id := "vec-" ++ toString (3 + 0),
             values := generate_random_vector (fun _ => (1 : ℚ) / 2)
               VECTOR_DIMENSION,
             metadata_batch_id := 3 / BATCH_SIZE } := by
  have h := c6_generate_vector_batch_shape (fun _ _ => (1 : ℚ) / 2) 3 2
    (fun i j => by norm_num)
  exact ⟨h.1, h.2.1 0 (by norm_num)⟩

/-! ## Lemmas about the write run and the query loops -/

theorem length_generate_vector_batch (u : ℕ → ℕ → ℚ) (start_id count : ℕ) :
    (generate_vector_batch u start_id count).length = count := by
  simp [generate_vector_batch]

theorem write_fold_upserted (nv : ℕ) (succ : ℕ → Bool) (lat : ℕ → ℚ)
    (rng : ℕ → ℕ → ℕ → ℚ) (l : List ℕ) :
    ∀ (m : LoadTestMetrics) (u : ℕ),
      (l.foldl (write_step nv succ lat rng) (m, u)).2 =
        u + (l.map (fun k => if succ k then batch_count nv k else 0)).sum := by
  induction l with
  | nil => intro m u; simp
  | cons k ks ih =>
    intro m u
    rw [List.foldl_cons]
    cases hk : succ k
    · have hstep : write_step nv succ lat rng (m, u) k =
          (m.record 0 false, u + 0) := by
        simp [write_step, upsert_batch, hk]
      rw [hstep, ih]
      simp [hk]
    · have hstep : write_step nv succ lat rng (m, u) k =
          (m.record (lat k) true, u + batch_count nv k) := by
        simp [write_step, upsert_batch, hk, length_generate_vector_batch]
      rw [hstep, ih]
      simp [hk]
      omega

theorem record_outcome_total (m : LoadTestMetrics) (lat : ℚ) (b : Bool) :
    (m.record lat b).operation_count + (m.record lat b).error_count =
      m.operation_count + m.error_count + 1 := by
  cases b <;> simp [LoadTestMetrics.record] <;> omega

theorem write_fold_outcomes (nv : ℕ) (succ : ℕ → Bool) (lat : ℕ → ℚ)
    (rng : ℕ → ℕ → ℕ → ℚ) (l : List ℕ) :
    ∀ (m : LoadTestMetrics) (u : ℕ),
      (l.foldl (write_step nv succ lat rng) (m, u)).1.operation_count +
        (l.foldl (write_step nv succ lat rng) (m, u)).1.error_count =
        m.operation_count + m.error_count + l.length := by
  induction l with
  | nil => intro m u; simp
  | cons k ks ih =>
    intro m u
    rw [List.foldl_cons]
    have hstep : (write_step nv succ lat rng (m, u) k).1 =
        m.record (if succ k then lat k else 0) (succ k) := by
      cases hk : succ k <;> simp [write_step, upsert_batch, hk]
    rcases hw : write_step nv succ lat rng (m, u) k with ⟨m2, u2⟩
    have hm2 : m2 = m.record (if succ k then lat k else 0) (succ k) := by
      rw [← hstep, hw]
    rw [ih m2 u2, hm2, record_outcome_total]
    simp
    omega

theorem query_random_outcomes (stop : ℕ → Bool) (outcome : ℕ → Bool)
    (lat : ℕ → ℚ) (fuel : ℕ) :
    ∀ (i : ℕ) (m : LoadTestMetrics),
      (query_random stop outcome lat fuel i m).1.operation_count +
        (query_random stop outcome lat fuel i m).1.error_count =
        m.operation_count + m.error_count +
          (query_random stop outcome lat fuel i m).2.length := by
  induction fuel with
  | zero => intro i m; simp [query_random]
  | succ fuel ih =>
    intro i m
    rw [query_random]
    by_cases hs : stop i
    · simp [hs]
    · simp only [hs, Bool.false_eq_true, if_false]
      cases ho : outcome i
      · simp only [ho, Bool.false_eq_true, if_false]
        rw [ih]
        have := record_outcome_total m 0 false
        simp [LoadTestMetrics.record] at *
        omega
      · simp only [ho, if_true]
        rw [ih]
        have := record_outcome_total m (lat i) true
        simp [LoadTestMetrics.record] at *
        omega

theorem total_batches_eq_ceil (nv : ℕ) :
    total_batches nv = ⌈(nv : ℚ) / (BATCH_SIZE : ℚ)⌉₊ := by
  by_cases h0 : nv = 0
  · subst h0
    simp [total_batches, BATCH_SIZE]
  · have htb : total_batches nv = (nv + 99) / 100 := by
      simp [total_batches, BATCH_SIZE]
    have htb1 : 1 ≤ total_batches nv := by
      rw [htb]; omega
    have hle : nv ≤ total_batches nv * 100 := by
      rw [htb]; omega
    have hlt : (total_batches nv - 1) * 100 < nv := by
      rw [htb]; omega
    symm
    rw [Nat.ceil_eq_iff (by omega)]
    constructor
    · rw [lt_div_iff₀ (by norm_num [BATCH_SIZE] : (0 : ℚ) < (BATCH_SIZE : ℚ))]
      show ((total_batches nv - 1 : ℕ) : ℚ) * (BATCH_SIZE : ℚ) < (nv : ℚ)
      have : ((total_batches nv - 1) * BATCH_SIZE : ℕ) < nv := by
        simpa [BATCH_SIZE] using hlt
      exact_mod_cast this
    · rw [div_le_iff₀ (by norm_num [BATCH_SIZE] : (0 : ℚ) < (BATCH_SIZE : ℚ))]
      have : nv ≤ total_batches nv * BATCH_SIZE := by
        simpa [BATCH_SIZE] using hle
      exact_mod_cast this

/-- Claim C8: if namespace discovery via `describe_index_stats` returns an
empty set of namespaces, the storm orchestrator returns immediately as a
no-op (only the explanatory message is printed): no worker thread is
launched and zero query calls are issued. -/
theorem c8_storm_empty_namespaces_noop (tpn : ℕ)
    (stop outcome : String → ℕ → ℕ → Bool) (lat : String → ℕ → ℕ → ℚ)
    (fuel : ℕ) (t0 t1 : ℚ) :
    run_aggressive_multi_namespace_read_test [] tpn stop outcome lat fuel
      t0 t1 = StormOutcome.noop := rfl

theorem query_random_stop_immediate (stop outcome : ℕ → Bool)
    (lat : ℕ → ℚ) (fuel i : ℕ) (m : LoadTestMetrics) (h : stop i = true) :
    query_random stop outcome lat fuel i m = (m, []) := by
  cases fuel <;> simp [query_random, h]

theorem query_random_issued_not_stopped (stop outcome : ℕ → Bool)
    (lat : ℕ → ℚ) (fuel : ℕ) :
    ∀ (i : ℕ) (m : LoadTestMetrics),
      ∀ j ∈ (query_random stop outcome lat fuel i m).2, stop j = false := by
  induction fuel with
  | zero => intro i m j hj; simp [query_random] at hj
  | succ fuel ih =>
    intro i m j hj
    rw [query_random] at hj
    by_cases hs : stop i
    · simp [hs] at hj
    · simp only [hs, Bool.false_eq_true, if_false, List.mem_cons] at hj
      rcases hj with rfl | hj
      · simpa using hs
      · exact ih (i + 1) _ j hj

theorem query_namespace_stop_immediate (ns : String)
    (stop outcome : ℕ → Bool) (lat : ℕ → ℚ) (fuel i : ℕ)
    (s : MultiNamespaceMetrics) (h : stop i = true) :
    query_namespace ns stop outcome lat fuel i s = (s, []) := by
  cases fuel <;> simp [query_namespace, h]

theorem query_namespace_issued_not_stopped (ns : String)
    (stop outcome : ℕ → Bool) (lat : ℕ → ℚ) (fuel : ℕ) :
    ∀ (i : ℕ) (s : MultiNamespaceMetrics),
      ∀ j ∈ (query_namespace ns stop outcome lat fuel i s).2,
        stop j = false := by
  induction fuel with
  | zero => intro i s j hj; simp [query_namespace] at hj
  | succ fuel ih =>
    intro i s j hj
    rw [query_namespace] at hj
    by_cases hs : stop i
    · simp [hs] at hj
    · simp only [hs, Bool.false_eq_true, if_false, List.mem_cons] at hj
      rcases hj with rfl | hj
      · simpa using hs
      · exact ih (i + 1) _ j hj

/-- Claim C9: every time-bounded query worker (`query_random` and
`query_namespace`) checks the shared stop signal at the top of each loop
iteration: a worker whose next check observes the signal set exits its
loop issuing nothing further, every issued query was issued at an
iteration that observed the signal unset, and — the signal being
monotone (write-once) — once it is set at time `t` no query is issued at
any iteration `≥ t`. -/
theorem c9_stop_signal_bounds_queries :
    (∀ (stop outcome : ℕ → Bool) (lat : ℕ → ℚ) (fuel i : ℕ)
      (m : LoadTestMetrics),
      (stop i = true → query_random stop outcome lat fuel i m = (m, [])) ∧
      (∀ j ∈ (query_random stop outcome lat fuel i m).2,
        stop j = false)) ∧
    (∀ (ns : String) (stop outcome : ℕ → Bool) (lat : ℕ → ℚ) (fuel i : ℕ)
      (s : MultiNamespaceMetrics),
      (stop i = true →
        query_namespace ns stop outcome lat fuel i s = (s, [])) ∧
      (∀ j ∈ (query_namespace ns stop outcome lat fuel i s).2,
        stop j = false)) ∧
    (∀ (stop : ℕ → Bool),
      (∀ a b, a ≤ b → stop a = true → stop b = true) →
      ∀ t, stop t = true →
      (∀ (outcome : ℕ → Bool) (lat : ℕ → ℚ) (fuel i : ℕ)
        (m : LoadTestMetrics),
        ∀ j ∈ (query_random stop outcome lat fuel i m).2, j < t) ∧
      (∀ (ns : String) (outcome : ℕ → Bool) (lat : ℕ → ℚ) (fuel i : ℕ)
        (s : MultiNamespaceMetrics),
        ∀ j ∈ (query_namespace ns stop outcome lat fuel i s).2,
          j < t)) := by
  refine ⟨?_, ?_, ?_⟩
  · intro stop outcome lat fuel i m
    exact ⟨query_random_stop_immediate stop outcome lat fuel i m,
      query_random_issued_not_stopped stop outcome lat fuel i m⟩
  · intro ns stop outcome lat fuel i s
    exact ⟨query_namespace_stop_immediate ns stop outcome lat fuel i s,
      query_namespace_issued_not_stopped ns stop outcome lat fuel i s⟩
  · intro stop hmono t ht
    constructor
    · intro outcome lat fuel i m j hj
      by_contra hlt
      have hjt : t ≤ j := by omega
      have := hmono t j hjt ht
      have hfalse := query_random_issued_not_stopped stop outcome lat fuel
        i m j hj
      rw [hfalse] at this
      exact Bool.false_ne_true this
    · intro ns outcome lat fuel i s j hj
      by_contra hlt
      have hjt : t ≤ j := by omega
      have := hmono t j hjt ht
      have hfalse := query_namespace_issued_not_stopped ns stop outcome
        lat fuel i s j hj
      rw [hfalse] at this
      exact Bool.false_ne_true this

/-- Witness for C9 with the concrete monotone stop flag set from
iteration 3 on: the worker started at iteration 3 exits at once, and a
worker started at 0 with fuel 10 issues queries only at iterations
below 3. -/
theorem c9_stop_signal_bounds_queries_witness :
    (query_random (fun i => decide (3 ≤ i)) (fun _ => true) (fun _ => 1)
      10 3 LoadTestMetrics.init = (LoadTestMetrics.init, [])) ∧
    (∀ j ∈ (query_random (fun i => decide (3 ≤ i)) (fun _ => true)
        (fun _ => 1) 10 0 LoadTestMetrics.init).2, j < 3) := by
  refine ⟨?_, ?_⟩
  · exact (c9_stop_signal_bounds_queries.1 (fun i => decide (3 ≤ i))
      (fun _ => true) (fun _ => 1) 10 3 LoadTestMetrics.init).1 (by decide)
  · exact (c9_stop_signal_bounds_queries.2.2 (fun i => decide (3 ≤ i))
      (fun a b hab h => by
        simp only [decide_eq_true_eq] at h ⊢
        omega) 3 (by decide)).1 (fun _ => true) (fun _ => 1) 10 0
      LoadTestMetrics.init

/-! ## Lemmas about the namespaced aggregator -/

theorem mnm_record_cons (s : MultiNamespaceMetrics) (c : String × ℚ × Bool)
    (cs : List (String × ℚ × Bool)) :
    s.recordAll (c :: cs) = (s.record c.1 c.2.1 c.2.2).recordAll cs := rfl

theorem mnm_recordAll_global (calls : List (String × ℚ × Bool)) :
    ∀ s : MultiNamespaceMetrics, (s.recordAll calls).global_metrics =
      s.global_metrics.recordAll (calls.map (fun c => (c.2.1, c.2.2))) := by
  induction calls with
  | nil => intro s; rfl
  | cons c cs ih =>
    intro s
    rw [mnm_record_cons, ih]
    rfl

theorem mnm_recordAll_per (calls : List (String × ℚ × Bool)) :
    ∀ (s : MultiNamespaceMetrics) (ns : String),
      (s.recordAll calls).per_namespace ns =
        if calls.any (fun c => c.1 == ns) then
          some (((s.per_namespace ns).getD LoadTestMetrics.init).recordAll
            ((calls.filter (fun c => c.1 == ns)).map
              (fun c => (c.2.1, c.2.2))))
        else s.per_namespace ns := by
  induction calls with
  | nil => intro s ns; simp [MultiNamespaceMetrics.recordAll]
  | cons c cs ih =>
    intro s ns
    rw [mnm_record_cons, ih]
    by_cases hc : c.1 = ns
    · have hbeq : (c.1 == ns) = true := by simp [hc]
      have hper : (s.record c.1 c.2.1 c.2.2).per_namespace ns =
          some (((s.per_namespace ns).getD LoadTestMetrics.init).record
            c.2.1 c.2.2) := by
        simp [MultiNamespaceMetrics.record, hc]
      by_cases hany : cs.any (fun x => x.1 == ns)
      · simp only [hany, if_true, hper, Option.getD_some, List.any_cons,
          hbeq, Bool.true_or, List.filter_cons, List.map_cons,
          record_cons_recordAll]
      · have hfilter : cs.filter (fun x => x.1 == ns) = [] := by
          rw [List.filter_eq_nil_iff]
          intro a ha
          have := List.any_eq_false.mp (Bool.eq_false_iff.mpr hany) a ha
          simpa using this
      
        simp [hany, hper, hbeq, hfilter, List.filter_cons,
          record_cons_recordAll, LoadTestMetrics.recordAll]
    · have hbeq : (c.1 == ns) = false := by simp [hc]
      have hper : (s.record c.1 c.2.1 c.2.2).per_namespace ns =
          s.per_namespace ns := by
        simp only [MultiNamespaceMetrics.record]
        rw [if_neg (fun h => hc h.symm)]
      simp only [hper, List.any_cons, hbeq, Bool.false_or,
        List.filter_cons, Bool.false_eq_true, if_false]

theorem countP_filter_fst_count (calls : List (String × ℚ × Bool))
    (p : String × ℚ × Bool → Bool) (ns : String) :
    (calls.filter (fun c => c.1 == ns)).countP p =
      ((calls.filter p).map (·.1)).count ns := by
  rw [List.count_eq_countP, List.countP_map, List.countP_filter,
    List.countP_filter]
  apply List.countP_congr
  intro c _
  simp [Function.comp, Bool.and_comm]

theorem countP_split_by_namespace (calls : List (String × ℚ × Bool))
    (p : String × ℚ × Bool → Bool) :
    calls.countP p =
      ∑ ns ∈ (calls.map (·.1)).toFinset,
        (calls.filter (fun c => c.1 == ns)).countP p := by
  have hsub : ((calls.filter p).map (·.1)).toFinset ⊆
      (calls.map (·.1)).toFinset := by
    intro a ha
    rw [List.mem_toFinset, List.mem_map] at ha ⊢
    obtain ⟨c, hc, rfl⟩ := ha
    exact ⟨c, (List.mem_filter.mp hc).1, rfl⟩
  have hzero : ∀ x ∈ (calls.map (·.1)).toFinset,
      x ∉ ((calls.filter p).map (·.1)).toFinset →
      ((calls.filter p).map (·.1)).count x = 0 := by
    intro x _ hx
    rw [List.mem_toFinset] at hx
    exact List.count_eq_zero.mpr hx
  calc calls.countP p = (calls.filter p).length :=
        List.countP_eq_length_filter _ _
    _ = ((calls.filter p).map (·.1)).length := (List.length_map _ _).symm
    _ = ∑ ns ∈ ((calls.filter p).map (·.1)).toFinset,
          ((calls.filter p).map (·.1)).count ns :=
        (List.sum_toFinset_count_eq_length _).symm
    _ = ∑ ns ∈ (calls.map (·.1)).toFinset,
          ((calls.filter p).map (·.1)).count ns :=
        Finset.sum_subset hsub hzero
    _ = ∑ ns ∈ (calls.map (·.1)).toFinset,
          (calls.filter (fun c => c.1 == ns)).countP p :=
        Finset.sum_congr rfl
          (fun ns _ => (countP_filter_fst_count calls p ns).symm)

/-- Claim C7: for every sequence of
`MultiNamespaceMetrics.record(namespace, latency, success)` calls, the
global collector receives every outcome; the per-namespace collector for
`ns` is created lazily on the first record for `ns` and receives exactly
the outcomes recorded under `ns` (so recording into one namespace never
changes the collector of another namespace); and the global
`operation_count` (resp. `error_count`) equals the sum over all
namespaces of the per-namespace `operation_count`s (resp.
`error_count`s). -/
theorem c7_namespaced_aggregation (calls : List (String × ℚ × Bool)) :
    (MultiNamespaceMetrics.init.recordAll calls).global_metrics =
      LoadTestMetrics.init.recordAll
        (calls.map (fun c => (c.2.1, c.2.2))) ∧
    (∀ ns, (MultiNamespaceMetrics.init.recordAll calls).per_namespace ns =
      if calls.any (fun c => c.1 == ns) then
        some (LoadTestMetrics.init.recordAll
          ((calls.filter (fun c => c.1 == ns)).map
            (fun c => (c.2.1, c.2.2))))
      else none) ∧
    (MultiNamespaceMetrics.init.recordAll
        calls).global_metrics.operation_count =
      ∑ ns ∈ (calls.map (·.1)).toFinset,
        nsOperationCount
          ((MultiNamespaceMetrics.init.recordAll
            calls).per_namespace ns) ∧
    (MultiNamespaceMetrics.init.recordAll
        calls).global_metrics.error_count =
      ∑ ns ∈ (calls.map (·.1)).toFinset,
        nsErrorCount
          ((MultiNamespaceMetrics.init.recordAll
            calls).per_namespace ns) := by
  have hglobal := mnm_recordAll_global calls MultiNamespaceMetrics.init
  have hper : ∀ ns,
      (MultiNamespaceMetrics.init.recordAll calls).per_namespace ns =
        if calls.any (fun c => c.1 == ns) then
          some (LoadTestMetrics.init.recordAll
            ((calls.filter (fun c => c.1 == ns)).map
              (fun c => (c.2.1, c.2.2))))
        else none := by
    intro ns
    have h := mnm_recordAll_per calls MultiNamespaceMetrics.init ns
    simpa [MultiNamespaceMetrics.init] using h
  have hany_of_mem : ∀ ns ∈ (calls.map (·.1)).toFinset,
      calls.any (fun c => c.1 == ns) = true := by
    intro ns hns
    have hmem := List.mem_toFinset.mp hns
    rw [List.any_eq_true]
    obtain ⟨c, hc, rfl⟩ := List.mem_map.mp hmem
    exact ⟨c, hc, by simp⟩
  refine ⟨hglobal, hper, ?_, ?_⟩
  · rw [hglobal, recordAll_operation_count]
    have hl : LoadTestMetrics.init.operation_count = 0 := rfl
    have hl0 : MultiNamespaceMetrics.init.global_metrics.operation_count =
      0 := rfl
    rw [hl0, Nat.zero_add, ← List.countP_eq_length_filter, List.countP_map]
    show calls.countP (fun c => c.2.2) = _
    rw [countP_split_by_namespace calls (fun c => c.2.2)]
    apply Finset.sum_congr rfl
    intro ns hns
    rw [hper ns, if_pos (hany_of_mem ns hns)]
    show _ = (LoadTestMetrics.init.recordAll
      ((calls.filter (fun c => c.1 == ns)).map
        (fun c => (c.2.1, c.2.2)))).operation_count
    rw [recordAll_operation_count, hl, Nat.zero_add,
      ← List.countP_eq_length_filter, List.countP_map]
    rfl
  · rw [hglobal, recordAll_error_count]
    have hl : LoadTestMetrics.init.error_count = 0 := rfl
    have hl0 : MultiNamespaceMetrics.init.global_metrics.error_count =
      0 := rfl
    rw [hl0, Nat.zero_add, ← List.countP_eq_length_filter, List.countP_map]
    show calls.countP (fun c => !c.2.2) = _
    rw [countP_split_by_namespace calls (fun c => !c.2.2)]
    apply Finset.sum_congr rfl
    intro ns hns
    rw [hper ns, if_pos (hany_of_mem ns hns)]
    show _ = (LoadTestMetrics.init.recordAll
      ((calls.filter (fun c => c.1 == ns)).map
        (fun c => (c.2.1, c.2.2)))).error_count
    rw [recordAll_error_count, hl, Nat.zero_add,
      ← List.countP_eq_length_filter, List.countP_map]
    rfl

/-- Claim C4 (code bug): the claim states that no per-call error is ever
fatal and that a run always completes its final summary report; the
workers do catch every per-call error and `summary()` guards the
zero-success case with its counts-only dict, but each orchestrator's
report block then unconditionally reads `summary['ops_per_sec']` and the
latency keys, which are absent from the counts-only dict — so a run in
which every call fails dies of an uncaught `KeyError` mid-report.  This
theorem evaluates the faithful models at all-failure inputs: the write
run raises before reaching its `return`, the read run raises
mid-report, and the storm run ends in the raised state. -/
theorem c4_report_keyerror_on_all_failures :
    run_write_load_test 200 (fun _ => false) (fun _ => 0) (fun _ _ _ => 0)
      0 1 = none ∧
    run_read_load_test 5 (fun _ _ => false) (fun _ _ => false)
      (fun _ _ => 0) 3 0 1 = none ∧
    run_aggressive_multi_namespace_read_test ["ns1"] 2 (fun _ _ _ => false)
      (fun _ _ _ => false) (fun _ _ _ => 0) 3 0 1 = StormOutcome.raised :=
  ⟨rfl, rfl, rfl⟩

/-- Claim C5 (code bug): the batching arithmetic of the claim is right —
`ceil(num_vectors / BATCH_SIZE)` batches of the stated sizes, and a run
that returns yields `vectors_upserted` as the sum over succeeding
batches (250 on the pinned all-success example) — but on the slice the
claim covers with "each failed batch contributing 0" in the extreme
(every upsert fails), the report block raises `KeyError` on the
counts-only summary dict before `return vectors_upserted` is reached, so
nothing is returned at all. -/
theorem c5_write_batching_report_keyerror :
    total_batches 250 = ⌈(250 : ℚ) / (BATCH_SIZE : ℚ)⌉₊ ∧
    (List.range (total_batches 250)).map (batch_count 250) =
      [100, 100, 50] ∧
    run_write_load_test 100 (fun _ => false) (fun _ => 0) (fun _ _ _ => 0)
      0 1 = none ∧
    run_write_load_test 250 (fun _ => true) (fun _ => 7) (fun _ _ _ => 0)
      0 10 =
      some (LoadTestMetrics.mk 3 0 [7, 7, 7] (some 0) (some 10), 250,
        WriteReport.mk 250 3 0 10 25 (3 / 10) 7 7 7 7) := by
  refine ⟨total_batches_eq_ceil 250, by decide, rfl, ?_⟩
  have hfold : (List.range (total_batches 250)).foldl
      (write_step 250 (fun _ => true) (fun _ => 7) (fun _ _ _ => 0))
      (LoadTestMetrics.init.start 0, 0) =
      (LoadTestMetrics.mk 3 0 [7, 7, 7] (some 0) none, 250) := by rfl
  have hsort : sortedAsc [7, 7, 7] = ([7, 7, 7] : List ℚ) := by
    apply List.mergeSort_eq_self
    norm_num [List.sorted_cons]
  have hidx95 : pIndex (3 : ℕ) (95 / 100) = 2 := by
    rw [pIndex]
    norm_num
    rfl
  have hidx95' : pIndex (3 : ℕ) (19 / 20) = 2 := by
    rw [pIndex]
    norm_num
    rfl
  have hidx99 : pIndex (3 : ℕ) (99 / 100) = 2 := by
    rw [pIndex]
    norm_num
    rfl
  have hsum : (LoadTestMetrics.mk 3 0 [7, 7, 7] (some 0)
      (some 10)).summary 10 =
      some (SummaryResult.full 3 0 10 (3 / 10) 7 7 7 7 7 7) := by
    rw [summary_nonempty (LoadTestMetrics.mk 3 0 [7, 7, 7] (some 0)
      (some 10)) 10 (by simp)]
    simp only [Option.some.injEq, SummaryResult.full.injEq]
    norm_num [hsort, hidx95, hidx95', hidx99, round2, roundHalfEven,
      pyMean, pyMedian, specSortedElement, pyMin, pyMax, List.getD,
      List.min?, List.max?, List.foldl, min_def, max_def,
      List.getElem?_cons_succ, List.getElem?_cons_zero]
  have hrep : write_report 250 (SummaryResult.full 3 0 10 (3 / 10)
      7 7 7 7 7 7) = some (WriteReport.mk 250 3 0 10 25 (3 / 10)
      7 7 7 7) := by
    norm_num [write_report, round2, roundHalfEven]
  simp [run_write_load_test, hfold, LoadTestMetrics.stop, hsum, hrep]
